import Mathlib

/-!
Verification of the snake-playground-pro backend core: the leaderboard
ranking computation, the score-submission write path, and the in-memory
live-player registry with its spectator stream protocol.

The Python source is shallowly embedded: SQLAlchemy rows become Lean
structures, the database session becomes an explicit `Db` value threaded
through the repository functions (each `commit` returns the next durable
`Db`), the in-memory `_players` dict becomes an association list with
python-dict semantics (replace on existing key, append on new key), and
autogenerated values (uuid primary keys, wall-clock timestamps) become
explicit parameters.  Scores are modelled as `Nat`: every write path
(`SubmitScoreRequest`, `LeaderboardEntry`, seed data) validates `score >= 0`
via pydantic `Field(ge=0)`.
-/

set_option autoImplicit false

namespace SnakeBackend

/-- Game mode enum (`app/models/user.py`, `GameMode`). -/
inductive GameMode
  | walls
  | passThrough
deriving DecidableEq, BEq

/-- A row of the `leaderboard` table (`app/models/db_models.py`,
`LeaderboardModel`).  The uuid primary key and the timestamp are modelled
as explicit data. -/
structure ScoreEntry where
  id : String
  user_id : String
  username : String
  score : Nat
  mode : GameMode
  date : Nat
deriving DecidableEq, BEq

/-- A row of the `users` table (`app/models/db_models.py`, `UserModel`). -/
structure UserRec where
  id : String
  username : String
  email : String
  password_hash : String
  high_score : Nat
  games_played : Nat
  created_at : Nat
deriving DecidableEq, BEq

/-- The durable database state: the `users` table and the append-only
`leaderboard` score ledger. -/
structure Db where
  users : List UserRec
  ledger : List ScoreEntry
deriving DecidableEq, BEq

/-- Pydantic `User` model (public view, no password hash). -/
structure User where
  id : String
  username : String
  email : String
  high_score : Nat
  games_played : Nat
  created_at : Nat
deriving DecidableEq, BEq

/-- Pydantic `LeaderboardEntry` model (`app/models/leaderboard.py`). -/
structure LeaderboardEntry where
  id : String
  username : String
  score : Nat
  mode : GameMode
  date : Nat
deriving DecidableEq, BEq

/-- Pydantic `UserStats` model (`app/models/user.py`). -/
structure UserStats where
  high_score : Nat
  games_played : Nat
  rank : Nat
deriving DecidableEq, BEq

/-- Errors surfaced by the routers: FastAPI validation rejection and the
HTTP 404 payloads. -/
inductive ApiError
  | validationError
  | userNotFound
  | playerNotFound
deriving DecidableEq, BEq

/-! ### Ranking computation (leaderboard_repository.py) -/

/-- Distinct `user_id`s appearing in the ledger, in first-appearance
order: the groups of the SQL `GROUP BY user_id`. -/
def scoredUsers (ledger : List ScoreEntry) : List String :=
  ledger.foldl (fun acc e => if e.user_id ∈ acc then acc else acc ++ [e.user_id]) []

/-- `MAX(score)` over one user's ledger entries: the SQL
`func.max(LeaderboardModel.score)` aggregate of the group-by subquery. -/
def bestScore (ledger : List ScoreEntry) (uid : String) : Nat :=
  ((ledger.filter (fun e => e.user_id == uid)).map (fun e => e.score)).foldl max 0

/-- Insert into a list kept in descending `key` order: `a` goes in front
of the first element with a strictly smaller key. -/
def insertDesc {α : Type} (key : α → Nat) (a : α) : List α → List α
  | [] => [a]
  | b :: l => if key b < key a then a :: b :: l else b :: insertDesc key a l

/-- Sort descending by `key`: the SQL `ORDER BY key DESC`. -/
def sortDesc {α : Type} (key : α → Nat) : List α → List α
  | [] => []
  | a :: l => insertDesc key a (sortDesc key l)

/-- The group-by rows ordered by max score descending: the `results` list
of `LeaderboardRepository.get_user_rank`. -/
def rankedUsers (ledger : List ScoreEntry) : List String :=
  sortDesc (bestScore ledger) (scoredUsers ledger)

/-- The rank-finding loop of `get_user_rank`:
`for rank, (uid, _) in enumerate(results, 1): if uid == user_id: return rank`
followed by `return len(results) + 1`. -/
def findRank (uid : String) : List String → Nat
  | [] => 1
  | u :: rest => if u == uid then 1 else findRank uid rest + 1

/-- `SELECT * FROM users WHERE id = user_id` + `scalar_one_or_none()`
(ids are the primary key, so first-match lookup is the row lookup). -/
def findUserById : List UserRec → String → Option UserRec
  | [], _ => none
  | u :: rest, uid => if u.id == uid then some u else findUserById rest uid

namespace LeaderboardRepository

/-- `LeaderboardRepository.get_user_rank`: `None` when the user row does
not exist, otherwise the 1-based position in the max-score-descending
order, with absent users ranked `len(results) + 1`. -/
def get_user_rank (db : Db) (user_id : String) : Option Nat :=
  match findUserById db.users user_id with
  | none => none
  | some _ => some (findRank user_id (rankedUsers db.ledger))

end LeaderboardRepository

/-! ### Lemmas about the descending sort -/

theorem perm_insertDesc {α : Type} (key : α → Nat) (a : α) (l : List α) :
    List.Perm (insertDesc key a l) (a :: l) := by
  induction l with
  | nil => simp [insertDesc]
  | cons b t ih =>
      simp only [insertDesc]
      split
      · exact List.Perm.refl _
      · exact List.Perm.trans (List.Perm.cons b ih) (List.Perm.swap a b t)

theorem mem_insertDesc {α : Type} (key : α → Nat) (a c : α) (l : List α) :
    c ∈ insertDesc key a l ↔ c = a ∨ c ∈ l := by
  have h := (perm_insertDesc key a l).mem_iff (a := c)
  simpa using h

theorem pairwise_insertDesc {α : Type} (key : α → Nat) (a : α) (l : List α)
    (h : List.Pairwise (fun x y => key y ≤ key x) l) :
    List.Pairwise (fun x y => key y ≤ key x) (insertDesc key a l) := by
  induction l with
  | nil => simp [insertDesc]
  | cons b t ih =>
      rcases List.pairwise_cons.mp h with ⟨hb, ht⟩
      simp only [insertDesc]
      split
      · rename_i hlt
        refine List.pairwise_cons.mpr ⟨?_, h⟩
        intro c hc
        rcases List.mem_cons.mp hc with rfl | hc
        · exact Nat.le_of_lt hlt
        · exact Nat.le_trans (hb c hc) (Nat.le_of_lt hlt)
      · rename_i hge
        refine List.pairwise_cons.mpr ⟨?_, ih ht⟩
        intro c hc
        rcases (mem_insertDesc key a c t).mp hc with rfl | hc
        · exact Nat.le_of_not_lt hge
        · exact hb c hc

theorem perm_sortDesc {α : Type} (key : α → Nat) (l : List α) :
    List.Perm (sortDesc key l) l := by
  induction l with
  | nil => simp [sortDesc]
  | cons a t ih =>
      simp only [sortDesc]
      exact List.Perm.trans (perm_insertDesc key a (sortDesc key t)) (List.Perm.cons a ih)

theorem pairwise_sortDesc {α : Type} (key : α → Nat) (l : List α) :
    List.Pairwise (fun x y => key y ≤ key x) (sortDesc key l) := by
  induction l with
  | nil => simp [sortDesc]
  | cons a t ih =>
      simp only [sortDesc]
      exact pairwise_insertDesc key a (sortDesc key t) ih

/-! ### Lemmas about the rank-finding loop -/

theorem findRank_pos (uid : String) (l : List String) : 1 ≤ findRank uid l := by
  induction l with
  | nil => simp [findRank]
  | cons u rest ih =>
      simp only [findRank]
      split
      · exact Nat.le_refl 1
      · omega

theorem findRank_of_not_mem (uid : String) (l : List String) (h : uid ∉ l) :
    findRank uid l = l.length + 1 := by
  induction l with
  | nil => simp [findRank]
  | cons u rest ih =>
      simp only [findRank]
      have hne : ¬(u == uid) = true := by
        simp only [beq_iff_eq]
        intro hEq
        exact h (hEq ▸ List.mem_cons_self u rest)
      rw [if_neg hne]
      have : uid ∉ rest := fun hmem => h (List.mem_cons_of_mem u hmem)
      rw [ih this]
      simp [List.length_cons]

theorem findRank_of_mem (uid : String) (l : List String) (h : uid ∈ l) :
    ∃ l1 l2, l = l1 ++ uid :: l2 ∧ uid ∉ l1 ∧ findRank uid l = l1.length + 1 := by
  induction l with
  | nil => cases h
  | cons u rest ih =>
      by_cases hu : u = uid
      · subst hu
        exact ⟨[], rest, by simp, by simp, by simp [findRank]⟩
      · have hmem : uid ∈ rest := by
          rcases List.mem_cons.mp h with h1 | h1
          · exact absurd h1.symm hu
          · exact h1
        rcases ih hmem with ⟨l1, l2, hsplit, hnot, hrank⟩
        refine ⟨u :: l1, l2, by simp [hsplit], ?_, ?_⟩
        · intro hc
          rcases List.mem_cons.mp hc with h1 | h1
          · exact hu h1.symm
          · exact hnot h1
        · have hne : ¬(u == uid) = true := by simpa using hu
          simp only [findRank, if_neg hne, hrank, List.length_cons]

/-! ### Remaining repository operations -/

namespace LeaderboardRepository

/-- The optional `WHERE mode = ...` filter of `get_leaderboard`. -/
def modeFilter (ledger : List ScoreEntry) (mode : Option GameMode) : List ScoreEntry :=
  match mode with
  | some m => ledger.filter (fun e => e.mode == m)
  | none => ledger

/-- `LeaderboardRepository.get_leaderboard`: optional mode filter, then
`ORDER BY score DESC LIMIT limit`, converted to pydantic entries. -/
def get_leaderboard (db : Db) (limit : Nat) (mode : Option GameMode) :
    List LeaderboardEntry :=
  ((sortDesc (fun e => e.score) (modeFilter db.ledger mode)).take limit).map (fun e =>
    { id := e.id, username := e.username, score := e.score, mode := e.mode, date := e.date })

/-- `LeaderboardRepository.add_score`: builds the row, `db.add` +
`db.commit` (the returned `Db` is the durable state after this commit),
then returns the pydantic entry.  The uuid primary key and the row
timestamp are passed in as `newId` / `now`. -/
def add_score (db : Db) (user_id username : String) (score : Nat) (mode : GameMode)
    (newId : String) (now : Nat) : Db × LeaderboardEntry :=
  let entry : ScoreEntry :=
    { id := newId, user_id := user_id, username := username, score := score,
      mode := mode, date := now }
  ({ db with ledger := db.ledger ++ [entry] },
   { id := entry.id, username := entry.username, score := entry.score,
     mode := entry.mode, date := entry.date })

end LeaderboardRepository

namespace UserRepository

/-- `UserRepository.get_by_id`: row lookup converted to the public
pydantic `User`. -/
def get_by_id (db : Db) (user_id : String) : Option User :=
  (findUserById db.users user_id).map (fun u =>
    { id := u.id, username := u.username, email := u.email,
      high_score := u.high_score, games_played := u.games_played,
      created_at := u.created_at })

/-- The row mutation of `UserRepository.update_stats`: on the matching
row, `games_played += 1` and `high_score = score if score > high_score`. -/
def update_stats_list (user_id : String) (score : Nat) : List UserRec → List UserRec
  | [] => []
  | u :: rest =>
      if u.id == user_id then
        { u with games_played := u.games_played + 1,
                 high_score := if u.high_score < score then score else u.high_score } :: rest
      else u :: update_stats_list user_id score rest

/-- `UserRepository.update_stats`: mutate the user row if it exists and
commit (no-op when the user does not exist). -/
def update_stats (db : Db) (user_id : String) (score : Nat) : Db :=
  { db with users := update_stats_list user_id score db.users }

end UserRepository

/-! ### DatabaseService facade (database_service.py) -/

namespace DatabaseService

def get_user_by_id (db : Db) (user_id : String) : Option User :=
  UserRepository.get_by_id db user_id

def update_user_stats (db : Db) (user_id : String) (score : Nat) : Db :=
  UserRepository.update_stats db user_id score

def get_leaderboard (db : Db) (limit : Nat) (mode : Option GameMode) :
    List LeaderboardEntry :=
  LeaderboardRepository.get_leaderboard db limit mode

def get_user_rank (db : Db) (user_id : String) : Option Nat :=
  LeaderboardRepository.get_user_rank db user_id

/-- `DatabaseService.add_score`: first the leaderboard insert (its own
commit), then the user-stat update (a second, separate commit). -/
def add_score (db : Db) (user_id username : String) (score : Nat) (mode : GameMode)
    (newId : String) (now : Nat) : Db × LeaderboardEntry :=
  let step1 := LeaderboardRepository.add_score db user_id username score mode newId now
  (update_user_stats step1.1 user_id score, step1.2)

end DatabaseService

/-! ### Routers (routers/leaderboard.py, routers/users.py) -/

namespace LeaderboardRouter

/-- `GET /leaderboard` with FastAPI `Query(ge=1, le=100)` validation on
`limit`: out-of-range limits are rejected before the handler body (and
hence before any store access). -/
def get_leaderboard (db : Db) (limit : Int) (mode : Option GameMode) :
    Except ApiError (List LeaderboardEntry) :=
  if limit < 1 ∨ 100 < limit then Except.error ApiError.validationError
  else Except.ok (DatabaseService.get_leaderboard db limit.toNat mode)

/-- `GET /leaderboard/rank/\x7buser_id\x7d`: 404 when the user does not
exist, else the repository rank with a fallback default of 1 when the
repository reports `None`. -/
def get_user_rank (db : Db) (user_id : String) : Except ApiError (String × Nat) :=
  match DatabaseService.get_user_by_id db user_id with
  | none => Except.error ApiError.userNotFound
  | some _ =>
      match DatabaseService.get_user_rank db user_id with
      | none => Except.ok (user_id, 1)
      | some r => Except.ok (user_id, r)

end LeaderboardRouter

namespace UsersRouter

/-- `GET /users/\x7buser_id\x7d/stats`: 404 when the user does not exist,
else high score, games played and the rank (defaulting to 1 when the
repository reports `None`). -/
def get_user_stats (db : Db) (user_id : String) : Except ApiError UserStats :=
  match DatabaseService.get_user_by_id db user_id with
  | none => Except.error ApiError.userNotFound
  | some user =>
      let rank :=
        match DatabaseService.get_user_rank db user_id with
        | none => 1
        | some r => r
      Except.ok { high_score := user.high_score, games_played := user.games_played,
                  rank := rank }

end UsersRouter

/-! ### C1: the rank computation -/

/-- C1: for every stored ledger and every user id belonging to an
existing user, `get_user_rank` returns a rank `r ≥ 1`; the order it ranks
against (`rankedUsers`) is a permutation of the distinct scored users
sorted descending by their maximum score, and `r` is the 1-based position
of the user in that order; a user with zero score entries gets rank equal
to the number of distinct scored users plus 1 (ranked last, not first,
and not an error). -/
theorem c1_rank_is_position_in_desc_best_score_order (db : Db) (uid : String)
    (h : (findUserById db.users uid).isSome) :
    ∃ r, LeaderboardRepository.get_user_rank db uid = some r ∧ 1 ≤ r ∧
      List.Perm (rankedUsers db.ledger) (scoredUsers db.ledger) ∧
      List.Pairwise (fun a b => bestScore db.ledger b ≤ bestScore db.ledger a)
        (rankedUsers db.ledger) ∧
      (uid ∈ scoredUsers db.ledger →
        ∃ l1 l2, rankedUsers db.ledger = l1 ++ uid :: l2 ∧ uid ∉ l1 ∧
          r = l1.length + 1) ∧
      (uid ∉ scoredUsers db.ledger → r = (scoredUsers db.ledger).length + 1) := by
  rcases Option.isSome_iff_exists.mp h with ⟨u, hu⟩
  refine ⟨findRank uid (rankedUsers db.ledger), ?_, findRank_pos _ _,
    perm_sortDesc _ _, pairwise_sortDesc _ _, ?_, ?_⟩
  · simp [LeaderboardRepository.get_user_rank, hu]
  · intro hmem
    have hmem2 : uid ∈ rankedUsers db.ledger :=
      (perm_sortDesc (bestScore db.ledger) (scoredUsers db.ledger)).mem_iff.mpr hmem
    rcases findRank_of_mem uid _ hmem2 with ⟨l1, l2, hsplit, hnot, hrank⟩
    exact ⟨l1, l2, hsplit, hnot, hrank⟩
  · intro hmem
    have hmem2 : uid ∉ rankedUsers db.ledger := fun hc =>
      hmem ((perm_sortDesc (bestScore db.ledger) (scoredUsers db.ledger)).mem_iff.mp hc)
    rw [findRank_of_not_mem uid _ hmem2]
    simp only [rankedUsers]
    rw [(perm_sortDesc (bestScore db.ledger) (scoredUsers db.ledger)).length_eq]

/-- Example user row used by the concrete witnesses. -/
def exUser : UserRec :=
  { id := "u1", username := "alice", email := "a", password_hash := "h",
    high_score := 0, games_played := 0, created_at := 0 }

/-- Example database used by the concrete witnesses: one user, one
ledger entry of score 100 for that user. -/
def exDb : Db :=
  { users := [exUser],
    ledger := [{ id := "e1", user_id := "u1", username := "alice", score := 100,
                 mode := GameMode.walls, date := 1 }] }

/-- Witness for C1 at the concrete database `exDb` and user `u1`. -/
theorem c1_rank_witness :
    (findUserById exDb.users "u1").isSome = true ∧
    (∃ r, LeaderboardRepository.get_user_rank exDb "u1" = some r ∧ 1 ≤ r ∧
      List.Perm (rankedUsers exDb.ledger) (scoredUsers exDb.ledger) ∧
      List.Pairwise (fun a b => bestScore exDb.ledger b ≤ bestScore exDb.ledger a)
        (rankedUsers exDb.ledger) ∧
      ("u1" ∈ scoredUsers exDb.ledger →
        ∃ l1 l2, rankedUsers exDb.ledger = l1 ++ "u1" :: l2 ∧ "u1" ∉ l1 ∧
          r = l1.length + 1) ∧
      ("u1" ∉ scoredUsers exDb.ledger → r = (scoredUsers exDb.ledger).length + 1)) :=
  ⟨by decide, c1_rank_is_position_in_desc_best_score_order exDb "u1" (by decide)⟩

/-! ### C10: `None` iff no account; router fallbacks unreachable -/

/-- C10: `get_user_rank` returns `None` exactly when the user id has no
account; for an existing user it returns a rank `≥ 1`; consequently the
router fallback branches that substitute a default rank of 1 are
unreachable: any `ok` result of the rank route or the stats route carries
a rank that the repository actually returned. -/
theorem c10_rank_none_iff_no_account (db : Db) (uid : String) :
    (LeaderboardRepository.get_user_rank db uid = none ↔
      findUserById db.users uid = none) ∧
    (∀ r, LeaderboardRepository.get_user_rank db uid = some r → 1 ≤ r) ∧
    (∀ p : String × Nat, LeaderboardRouter.get_user_rank db uid = Except.ok p →
      LeaderboardRepository.get_user_rank db uid = some p.2) ∧
    (∀ st : UserStats, UsersRouter.get_user_stats db uid = Except.ok st →
      LeaderboardRepository.get_user_rank db uid = some st.rank) := by
  cases hu : findUserById db.users uid with
  | none =>
      refine ⟨by simp [LeaderboardRepository.get_user_rank, hu], ?_, ?_, ?_⟩
      · intro r hr
        simp [LeaderboardRepository.get_user_rank, hu] at hr
      · intro p hp
        simp [LeaderboardRouter.get_user_rank, DatabaseService.get_user_by_id,
          UserRepository.get_by_id, hu] at hp
      · intro st hst
        simp [UsersRouter.get_user_stats, DatabaseService.get_user_by_id,
          UserRepository.get_by_id, hu] at hst
  | some u =>
      refine ⟨by simp [LeaderboardRepository.get_user_rank, hu], ?_, ?_, ?_⟩
      · intro r hr
        simp only [LeaderboardRepository.get_user_rank, hu, Option.some.injEq] at hr
        exact hr ▸ findRank_pos uid (rankedUsers db.ledger)
      · intro p hp
        have hroute : LeaderboardRouter.get_user_rank db uid =
            Except.ok (uid, findRank uid (rankedUsers db.ledger)) := by
          simp [LeaderboardRouter.get_user_rank, DatabaseService.get_user_by_id,
            UserRepository.get_by_id, hu, DatabaseService.get_user_rank,
            LeaderboardRepository.get_user_rank]
        rw [hroute] at hp
        injection hp with h2
        rw [← h2]
        simp [LeaderboardRepository.get_user_rank, hu]
      · intro st hst
        have hroute : UsersRouter.get_user_stats db uid =
            Except.ok { high_score := u.high_score, games_played := u.games_played,
                        rank := findRank uid (rankedUsers db.ledger) } := by
          simp [UsersRouter.get_user_stats, DatabaseService.get_user_by_id,
            UserRepository.get_by_id, hu, DatabaseService.get_user_rank,
            LeaderboardRepository.get_user_rank]
        rw [hroute] at hst
        injection hst with h2
        rw [← h2]
        simp [LeaderboardRepository.get_user_rank, hu]

/-- Witness for C10 at the concrete database `exDb`: instantiates the
implications at user `u1` (rank 1 from the repository, router returns
it unchanged). -/
theorem c10_rank_witness :
    LeaderboardRepository.get_user_rank exDb "u1" = some 1 ∧
    LeaderboardRouter.get_user_rank exDb "u1" = Except.ok ("u1", 1) ∧
    1 ≤ 1 := by
  have h := c10_rank_none_iff_no_account exDb "u1"
  have hrank : LeaderboardRepository.get_user_rank exDb "u1" = some 1 := by decide
  have hroute : LeaderboardRouter.get_user_rank exDb "u1" = Except.ok ("u1", 1) := by
    rfl
  exact ⟨hrank, hroute, h.2.1 1 hrank⟩

/-! ### C6: score submission bumps exactly the cached stats -/

theorem if_lt_eq_max (a b : Nat) : (if a < b then b else a) = max a b := by
  rw [Nat.max_def]
  split <;> split <;> omega

theorem findUserById_update_stats_list (users : List UserRec) (uid : String)
    (s : Nat) (u : UserRec) (h : findUserById users uid = some u) :
    findUserById (UserRepository.update_stats_list uid s users) uid =
      some { u with games_played := u.games_played + 1,
                    high_score := max u.high_score s } := by
  induction users with
  | nil => simp [findUserById] at h
  | cons v rest ih =>
      by_cases hv : (v.id == uid) = true
      · simp only [findUserById, if_pos hv] at h
        injection h with h
        subst h
        simp [UserRepository.update_stats_list, findUserById, hv, if_lt_eq_max]
      · simp only [findUserById, if_neg hv] at h
        simp only [UserRepository.update_stats_list, findUserById, hv, if_false,
          Bool.false_eq_true, if_neg]
        exact ih h

/-- C6: for every user and every submitted score `s` (a `Nat`, so
`s ≥ 0`), submitting the score and then reading that user's record shows
`games_played` incremented by exactly 1 and `high_score = max(previous,
s)`, with every other user field (id, username, email, password hash,
creation time) unchanged; the stats route reports the same numbers. -/
theorem c6_add_score_round_trip (db : Db) (uid uname : String) (s : Nat)
    (mode : GameMode) (newId : String) (now : Nat) (u : UserRec)
    (h : findUserById db.users uid = some u) :
    findUserById (DatabaseService.add_score db uid uname s mode newId now).1.users uid =
      some { u with games_played := u.games_played + 1,
                    high_score := max u.high_score s } ∧
    DatabaseService.get_user_by_id (DatabaseService.add_score db uid uname s mode newId now).1 uid =
      some { id := u.id, username := u.username, email := u.email,
             high_score := max u.high_score s,
             games_played := u.games_played + 1, created_at := u.created_at } ∧
    (∃ rk, UsersRouter.get_user_stats
        (DatabaseService.add_score db uid uname s mode newId now).1 uid =
      Except.ok { high_score := max u.high_score s,
                  games_played := u.games_played + 1, rank := rk }) := by
  have husers : (DatabaseService.add_score db uid uname s mode newId now).1.users =
      UserRepository.update_stats_list uid s db.users := rfl
  have hfind := findUserById_update_stats_list db.users uid s u h
  refine ⟨by rw [husers]; exact hfind, ?_, ?_⟩
  · simp only [DatabaseService.get_user_by_id, UserRepository.get_by_id, husers, hfind,
      Option.map]
  · refine ⟨findRank uid
      (rankedUsers (DatabaseService.add_score db uid uname s mode newId now).1.ledger), ?_⟩
    simp only [UsersRouter.get_user_stats, DatabaseService.get_user_by_id,
      UserRepository.get_by_id, husers, hfind, Option.map,
      DatabaseService.get_user_rank, LeaderboardRepository.get_user_rank, husers, hfind]

/-- Witness for C6: in `exDb`, user `u1` starts at `high_score = 0`,
`games_played = 0`; submitting score 200 yields `high_score = 200`,
`games_played = 1`. -/
theorem c6_round_trip_witness :
    findUserById exDb.users "u1" = some exUser ∧
    findUserById (DatabaseService.add_score exDb "u1" "alice" 200 GameMode.walls "e2" 2).1.users "u1" =
      some { exUser with games_played := 1, high_score := 200 } := by
  have h0 : findUserById exDb.users "u1" = some exUser := by decide
  have h := (c6_add_score_round_trip exDb "u1" "alice" 200 GameMode.walls "e2" 2 exUser h0).1
  refine ⟨h0, ?_⟩
  rw [h]
  decide

/-! ### C2: the entry insert and the stat bump are two separate commits -/

/-- C2 (amended): `DatabaseService.add_score` applies the two writes as
two successive, separately committed database states rather than one
transaction: the first commit (inside `LeaderboardRepository.add_score`)
appends the ledger entry and leaves the user rows untouched, and only the
second commit (inside `UserRepository.update_stats`) applies the stat
bump, without touching the ledger.  A persistence failure between the two
commits therefore leaves a durable state in which the entry exists
without the stat bump. -/
theorem c2_two_separate_commits (db : Db) (uid uname : String) (s : Nat)
    (mode : GameMode) (newId : String) (now : Nat) :
    ((LeaderboardRepository.add_score db uid uname s mode newId now).1.users = db.users) ∧
    ((LeaderboardRepository.add_score db uid uname s mode newId now).1.ledger =
      db.ledger ++ [{ id := newId, user_id := uid, username := uname, score := s,
                      mode := mode, date := now }]) ∧
    ((DatabaseService.add_score db uid uname s mode newId now).1 =
      UserRepository.update_stats
        (LeaderboardRepository.add_score db uid uname s mode newId now).1 uid s) ∧
    ((DatabaseService.add_score db uid uname s mode newId now).1.ledger =
      (LeaderboardRepository.add_score db uid uname s mode newId now).1.ledger) :=
  ⟨rfl, rfl, rfl, rfl⟩

/-- C2 counterexample: the durable state after the first commit of
`DatabaseService.add_score exDb "u1" ... 200 ...` — the state the store
is left in if the process fails before the stat update — contains the
new score entry while user `u1` still has `games_played = 0` and
`high_score = 0`: an intermediate state with the entry but no stat bump
is visible, refuting the single-transaction claim. -/
theorem c2_counterexample_partial_write_visible :
    ((LeaderboardRepository.add_score exDb "u1" "alice" 200 GameMode.walls "e2" 2).1.ledger.map
        (fun e => e.score) = [100, 200]) ∧
    (findUserById (LeaderboardRepository.add_score exDb "u1" "alice" 200 GameMode.walls "e2" 2).1.users "u1" =
      some exUser) ∧
    exUser.games_played = 0 ∧ exUser.high_score = 0 ∧
    ((DatabaseService.add_score exDb "u1" "alice" 200 GameMode.walls "e2" 2).1 =
      UserRepository.update_stats
        (LeaderboardRepository.add_score exDb "u1" "alice" 200 GameMode.walls "e2" 2).1 "u1" 200) := by
  refine ⟨by decide, by decide, rfl, rfl, rfl⟩

/-! ### Live registry (services/live_player_service.py)

The `_players : dict[str, dict]` of the singleton service is modelled as
an association list with python-dict semantics: assignment replaces the
value of an existing key in place and appends a new key at the end;
`pop` removes the entry.  The raw `mode` and `direction` strings are
stored as the dict stores them; the wall-clock `last_update` value is an
explicit `now` parameter. -/

/-- A grid coordinate (`app/models/live.py`, `Position`). -/
structure Position where
  x : Nat
  y : Nat
deriving DecidableEq, BEq

/-- The per-session dict built by `add_player` and mutated by the other
service methods. -/
structure PlayerData where
  id : String
  user_id : String
  username : String
  score : Nat
  mode : String
  snake : List Position
  food : Position
  direction : String
  is_alive : Bool
  watcher_count : Int
  last_update : Nat
deriving DecidableEq, BEq

/-- Pydantic `LivePlayer` model: the projection `_to_live_player`
returns (the enum re-validation of `mode`/`direction` is kept as the raw
strings). -/
structure LivePlayer where
  id : String
  username : String
  score : Nat
  mode : String
  snake : List Position
  food : Position
  direction : String
  is_alive : Bool
  watcher_count : Int
deriving DecidableEq, BEq

/-- The `_players` dict. -/
abbrev Registry := List (String × PlayerData)

namespace Registry

/-- Dict lookup `self._players.get(player_id)`. -/
def lookup : Registry → String → Option PlayerData
  | [], _ => none
  | kv :: rest, pid => if kv.1 == pid then some kv.2 else Registry.lookup rest pid

/-- Dict assignment `self._players[player_id] = data`: replace the entry
of an existing key in place, append a fresh key at the end. -/
def setKey : Registry → String → PlayerData → Registry
  | [], pid, p => [(pid, p)]
  | kv :: rest, pid, p =>
      if kv.1 == pid then (pid, p) :: rest else kv :: Registry.setKey rest pid p

/-- Dict removal `self._players.pop(player_id, None)`. -/
def eraseKey : Registry → String → Registry
  | [], _ => []
  | kv :: rest, pid => if kv.1 == pid then rest else kv :: Registry.eraseKey rest pid

end Registry

namespace LivePlayerService

/-- `LivePlayerService._to_live_player`. -/
def to_live_player (p : PlayerData) : LivePlayer :=
  { id := p.id, username := p.username, score := p.score, mode := p.mode,
    snake := p.snake, food := p.food, direction := p.direction,
    is_alive := p.is_alive, watcher_count := p.watcher_count }

/-- `LivePlayerService.add_player`: stores the fixed deterministic
initial state under `player_id` and returns its `LivePlayer` view. -/
def add_player (reg : Registry) (player_id user_id username mode : String)
    (now : Nat) : Registry × LivePlayer :=
  let p : PlayerData :=
    { id := player_id, user_id := user_id, username := username, score := 0,
      mode := mode,
      snake := [⟨10, 10⟩, ⟨9, 10⟩, ⟨8, 10⟩], food := ⟨15, 12⟩,
      direction := "RIGHT", is_alive := true, watcher_count := 0,
      last_update := now }
  (Registry.setKey reg player_id p, to_live_player p)

/-- `LivePlayerService.remove_player`. -/
def remove_player (reg : Registry) (player_id : String) : Registry :=
  Registry.eraseKey reg player_id

/-- `LivePlayerService.get_player`. -/
def get_player (reg : Registry) (player_id : String) : Option LivePlayer :=
  (Registry.lookup reg player_id).map to_live_player

/-- `LivePlayerService.update_game_state`: replaces the snapshot fields
of an existing session, no-op when the id is unknown. -/
def update_game_state (reg : Registry) (player_id : String) (snake : List Position)
    (food : Position) (direction : String) (score : Nat) (is_alive : Bool)
    (now : Nat) : Registry :=
  match Registry.lookup reg player_id with
  | some p =>
      Registry.setKey reg player_id
        { p with snake := snake, food := food, direction := direction,
                 score := score, is_alive := is_alive, last_update := now }
  | none => reg

/-- `LivePlayerService.increment_watchers`. -/
def increment_watchers (reg : Registry) (player_id : String) :
    Registry × Option Int :=
  match Registry.lookup reg player_id with
  | some p =>
      let p2 := { p with watcher_count := p.watcher_count + 1 }
      (Registry.setKey reg player_id p2, some p2.watcher_count)
  | none => (reg, none)

/-- `LivePlayerService.decrement_watchers`: clamped at a floor of 0. -/
def decrement_watchers (reg : Registry) (player_id : String) :
    Registry × Option Int :=
  match Registry.lookup reg player_id with
  | some p =>
      let p2 := { p with watcher_count := max 0 (p.watcher_count - 1) }
      (Registry.setKey reg player_id p2, some p2.watcher_count)
  | none => (reg, none)

end LivePlayerService

/-! ### Registry lemmas -/

theorem lookup_setKey_self (reg : Registry) (pid : String) (p : PlayerData) :
    Registry.lookup (Registry.setKey reg pid p) pid = some p := by
  induction reg with
  | nil => simp [Registry.setKey, Registry.lookup]
  | cons kv rest ih =>
      by_cases hk : (kv.1 == pid) = true
      · simp [Registry.setKey, Registry.lookup, hk]
      · simp only [Registry.setKey, Registry.lookup, hk, if_false, Bool.false_eq_true,
          if_neg]
        exact ih

theorem lookup_setKey_ne (reg : Registry) (pid q : String) (p : PlayerData)
    (h : q ≠ pid) :
    Registry.lookup (Registry.setKey reg pid p) q = Registry.lookup reg q := by
  induction reg with
  | nil =>
      have hpq : ¬(pid == q) = true := fun hc => h (beq_iff_eq.mp hc).symm
      simp [Registry.setKey, Registry.lookup, hpq]
  | cons kv rest ih =>
      by_cases hk : (kv.1 == pid) = true
      · have hkv : kv.1 = pid := beq_iff_eq.mp hk
        have hkq : ¬(pid == q) = true := fun hc => h (beq_iff_eq.mp hc).symm
        have hkq2 : ¬(kv.1 == q) = true := fun hc =>
          h (hkv.symm.trans (beq_iff_eq.mp hc)).symm
        simp [Registry.setKey, Registry.lookup, hk, hkq, hkq2]
      · by_cases hq : (kv.1 == q) = true
        · simp [Registry.setKey, Registry.lookup, hk, hq]
        · simp only [Registry.setKey, Registry.lookup, hk, hq, if_false,
            Bool.false_eq_true, if_neg]
          exact ih

/-! ### C8: deterministic initial session state -/

/-- C8: for every `(user_id, username, mode)`, `add_player` produces a
session whose initial state is fixed and deterministic: a 3-segment
snake at (10,10),(9,10),(8,10), food at (15,12), heading RIGHT, score 0,
watcher count 0 and the alive flag true — both in the returned
`LivePlayer` view and in the stored registry entry. -/
theorem c8_add_player_initial_state (reg : Registry)
    (pid uid uname mode : String) (now : Nat) :
    (LivePlayerService.add_player reg pid uid uname mode now).2 =
      { id := pid, username := uname, score := 0, mode := mode,
        snake := [⟨10, 10⟩, ⟨9, 10⟩, ⟨8, 10⟩], food := ⟨15, 12⟩,
        direction := "RIGHT", is_alive := true, watcher_count := 0 } ∧
    Registry.lookup (LivePlayerService.add_player reg pid uid uname mode now).1 pid =
      some { id := pid, user_id := uid, username := uname, score := 0,
             mode := mode, snake := [⟨10, 10⟩, ⟨9, 10⟩, ⟨8, 10⟩],
             food := ⟨15, 12⟩, direction := "RIGHT", is_alive := true,
             watcher_count := 0, last_update := now } :=
  ⟨rfl, lookup_setKey_self reg pid _⟩

/-! ### C9: update_game_state replaces exactly the snapshot fields -/

/-- C9: `update_game_state` on an existing session replaces the snake,
food, direction, score and alive fields (and refreshes the update
timestamp), leaving the session's id, user id, username, mode and
watcher count unchanged and leaving every other session untouched; when
no session with the given id exists the whole registry is unchanged. -/
theorem c9_update_game_state_frame (reg : Registry) (pid : String)
    (snake : List Position) (food : Position) (dir : String) (score : Nat)
    (alive : Bool) (now : Nat) :
    (Registry.lookup reg pid = none →
      LivePlayerService.update_game_state reg pid snake food dir score alive now = reg) ∧
    (∀ p, Registry.lookup reg pid = some p →
      Registry.lookup
          (LivePlayerService.update_game_state reg pid snake food dir score alive now) pid =
        some { p with snake := snake, food := food, direction := dir,
                      score := score, is_alive := alive, last_update := now } ∧
      ∀ q, q ≠ pid →
        Registry.lookup
            (LivePlayerService.update_game_state reg pid snake food dir score alive now) q =
          Registry.lookup reg q) := by
  constructor
  · intro h
    simp [LivePlayerService.update_game_state, h]
  · intro p hp
    constructor
    · simp [LivePlayerService.update_game_state, hp, lookup_setKey_self]
    · intro q hq
      simp [LivePlayerService.update_game_state, hp, lookup_setKey_ne _ _ _ _ hq]

/-- Example registry with the single session `p1` owned by user `u1`. -/
def exReg : Registry :=
  (LivePlayerService.add_player [] "p1" "u1" "alice" "walls" 0).1

/-- The session dict stored in `exReg` under `p1`. -/
def exPlayerData : PlayerData :=
  { id := "p1", user_id := "u1", username := "alice", score := 0,
    mode := "walls", snake := [⟨10, 10⟩, ⟨9, 10⟩, ⟨8, 10⟩], food := ⟨15, 12⟩,
    direction := "RIGHT", is_alive := true, watcher_count := 0,
    last_update := 0 }

/-- Witness for C9: updating session `p1` in `exReg` rewrites the
snapshot fields and keeps the identity fields; updating a missing id in
the empty registry is a no-op. -/
theorem c9_update_witness :
    Registry.lookup
        (LivePlayerService.update_game_state exReg "p1" [⟨1, 1⟩] ⟨2, 2⟩ "UP" 5 false 7) "p1" =
      some { exPlayerData with snake := [⟨1, 1⟩], food := ⟨2, 2⟩,
                               direction := "UP", score := 5, is_alive := false,
                               last_update := 7 } ∧
    LivePlayerService.update_game_state ([] : Registry) "p1" [⟨1, 1⟩] ⟨2, 2⟩ "UP" 5 false 7 =
      ([] : Registry) :=
  ⟨((c9_update_game_state_frame exReg "p1" [⟨1, 1⟩] ⟨2, 2⟩ "UP" 5 false 7).2
      exPlayerData (by decide)).1,
   (c9_update_game_state_frame ([] : Registry) "p1" [⟨1, 1⟩] ⟨2, 2⟩ "UP" 5 false 7).1 rfl⟩

/-! ### C5: uniqueness in the live registry -/

/-- The dict keys. -/
def regKeys (reg : Registry) : List String := reg.map Prod.fst

/-- The dict-key invariant: keys are distinct. -/
abbrev keysNodup (reg : Registry) : Prop := (regKeys reg).Nodup

/-- Number of registry entries stored under a given session id. -/
def countKey (reg : Registry) (pid : String) : Nat :=
  (reg.filter (fun kv => kv.1 == pid)).length

theorem countKey_eq_zero (reg : Registry) (pid : String)
    (h : pid ∉ regKeys reg) : countKey reg pid = 0 := by
  induction reg with
  | nil => simp [countKey]
  | cons kv rest ih =>
      have h1 : kv.1 ≠ pid := fun hc => h (hc ▸ List.mem_cons_self kv.1 _)
      have h2 : pid ∉ regKeys rest := fun hc => h (List.mem_cons_of_mem _ hc)
      have hb : ¬(kv.1 == pid) = true := fun hc => h1 (beq_iff_eq.mp hc)
      simp only [countKey, List.filter_cons, hb, if_false, Bool.false_eq_true, if_neg]
      exact ih h2

theorem mem_regKeys_setKey (reg : Registry) (pid : String) (p : PlayerData)
    (q : String) (h : q ∈ regKeys (Registry.setKey reg pid p)) :
    q ∈ regKeys reg ∨ q = pid := by
  induction reg with
  | nil =>
      simp [Registry.setKey, regKeys] at h
      exact Or.inr h
  | cons kv rest ih =>
      by_cases hk : (kv.1 == pid) = true
      · simp only [Registry.setKey, hk, if_true, if_pos, regKeys, List.map_cons] at h
        rcases List.mem_cons.mp h with h1 | h1
        · exact Or.inr h1
        · exact Or.inl (List.mem_cons_of_mem _ h1)
      · simp only [Registry.setKey, hk, if_false, Bool.false_eq_true, if_neg,
          regKeys, List.map_cons] at h
        rcases List.mem_cons.mp h with h1 | h1
        · exact Or.inl (h1 ▸ List.mem_cons_self kv.1 _)
        · rcases ih h1 with h2 | h2
          · exact Or.inl (List.mem_cons_of_mem _ h2)
          · exact Or.inr h2

theorem keysNodup_setKey (reg : Registry) (pid : String) (p : PlayerData)
    (h : keysNodup reg) :
    keysNodup (Registry.setKey reg pid p) ∧
    countKey (Registry.setKey reg pid p) pid = 1 := by
  induction reg with
  | nil =>
      constructor
      · simp [Registry.setKey, keysNodup, regKeys]
      · simp [Registry.setKey, countKey]
  | cons kv rest ih =>
      have hhead : kv.1 ∉ regKeys rest := by
        have := (List.nodup_cons.mp h).1
        simpa [regKeys] using this
      have hrest : keysNodup rest := (List.nodup_cons.mp h).2
      by_cases hk : (kv.1 == pid) = true
      · have hkv : kv.1 = pid := beq_iff_eq.mp hk
        constructor
        · simp only [Registry.setKey, hk, if_true, if_pos, keysNodup, regKeys,
            List.map_cons]
          refine List.nodup_cons.mpr ⟨?_, ?_⟩
          · exact hkv ▸ hhead
          · exact hrest
        · have hz : countKey rest pid = 0 := countKey_eq_zero rest pid (hkv ▸ hhead)
          simp only [Registry.setKey, hk, if_true, if_pos, countKey, List.filter_cons,
            beq_self_eq_true, List.length_cons]
          simp only [countKey] at hz
          omega
      · rcases ih hrest with ⟨ih1, ih2⟩
        constructor
        · simp only [Registry.setKey, hk, if_false, Bool.false_eq_true, if_neg,
            keysNodup, regKeys, List.map_cons]
          refine List.nodup_cons.mpr ⟨?_, ih1⟩
          intro hc
          rcases mem_regKeys_setKey rest pid p kv.1 hc with h1 | h1
          · exact hhead h1
          · exact hk (beq_iff_eq.mpr h1)
        · simp only [Registry.setKey, hk, if_false, Bool.false_eq_true, if_neg,
            countKey, List.filter_cons]
          simp only [countKey] at ih2
          simp [hk, ih2]

/-- C5 counterexample: the registry is keyed by session id, not user id.
Starting a second session for user `u1` under a new session id `p2`
leaves two coexisting sessions both owned by `u1`, refuting the
at-most-one-session-per-user-id invariant. -/
theorem c5_counterexample_two_sessions_same_user :
    (((LivePlayerService.add_player
          (LivePlayerService.add_player [] "p1" "u1" "alice" "walls" 0).1
          "p2" "u1" "alice" "walls" 0).1.filter
        (fun kv => kv.2.user_id == "u1")).length = 2) ∧
    Registry.lookup (LivePlayerService.add_player
        (LivePlayerService.add_player [] "p1" "u1" "alice" "walls" 0).1
        "p2" "u1" "alice" "walls" 0).1 "p1" ≠ none ∧
    Registry.lookup (LivePlayerService.add_player
        (LivePlayerService.add_player [] "p1" "u1" "alice" "walls" 0).1
        "p2" "u1" "alice" "walls" 0).1 "p2" ≠ none := by
  refine ⟨by decide, by decide, by decide⟩

/-- C5 (amended): the registry guarantees at most one live session per
session id (`player_id`), not per user id: starting a session whose
session id is already present replaces that session in place, and on a
registry with distinct keys `add_player` preserves key distinctness and
stores exactly one entry under the new session id.  Uniqueness per user
id is not enforced: a user starting a second session under a fresh
session id owns two coexisting sessions. -/
theorem c5_amended_unique_per_session_id (reg : Registry)
    (pid uid uname mode : String) (now : Nat) (h : keysNodup reg) :
    keysNodup (LivePlayerService.add_player reg pid uid uname mode now).1 ∧
    countKey (LivePlayerService.add_player reg pid uid uname mode now).1 pid = 1 :=
  keysNodup_setKey reg pid _ h

/-- Witness for C5 (amended) at the one-session registry `exReg`:
re-adding session id `p1` keeps the keys distinct with exactly one `p1`
entry. -/
theorem c5_unique_witness :
    keysNodup (LivePlayerService.add_player exReg "p1" "u2" "bob" "walls" 3).1 ∧
    countKey (LivePlayerService.add_player exReg "p1" "u2" "bob" "walls" 3).1 "p1" = 1 :=
  c5_amended_unique_per_session_id exReg "p1" "u2" "bob" "walls" 3 (by decide)

/-! ### C3: watcher join/leave sequences -/

/-- A watcher operation: `POST .../watch` (join) or `DELETE .../watch`
(leave). -/
inductive WatchOp
  | join
  | leave
deriving DecidableEq, BEq

/-- Applying a sequence of watcher operations on one session. -/
def applyWatchOps (reg : Registry) (pid : String) : List WatchOp → Registry
  | [] => reg
  | WatchOp.join :: rest =>
      applyWatchOps (LivePlayerService.increment_watchers reg pid).1 pid rest
  | WatchOp.leave :: rest =>
      applyWatchOps (LivePlayerService.decrement_watchers reg pid).1 pid rest

/-- One step of the count evolution: `+1` on join, clamp-at-zero
decrement on leave — exactly what the service does to the stored count. -/
def clampStep (c : Int) : WatchOp → Int
  | WatchOp.join => c + 1
  | WatchOp.leave => max 0 (c - 1)

/-- The count after a sequence of operations, starting from 0. -/
def clampFold (ops : List WatchOp) : Int := ops.foldl clampStep 0

/-- Number of joins in a sequence. -/
def joins : List WatchOp → Nat
  | [] => 0
  | WatchOp.join :: rest => joins rest + 1
  | WatchOp.leave :: rest => joins rest

/-- Number of leaves in a sequence. -/
def leaves : List WatchOp → Nat
  | [] => 0
  | WatchOp.join :: rest => leaves rest
  | WatchOp.leave :: rest => leaves rest + 1

theorem lookup_increment (reg : Registry) (pid : String) (p : PlayerData)
    (h : Registry.lookup reg pid = some p) :
    Registry.lookup (LivePlayerService.increment_watchers reg pid).1 pid =
      some { p with watcher_count := p.watcher_count + 1 } := by
  simp [LivePlayerService.increment_watchers, h, lookup_setKey_self]

theorem lookup_decrement (reg : Registry) (pid : String) (p : PlayerData)
    (h : Registry.lookup reg pid = some p) :
    Registry.lookup (LivePlayerService.decrement_watchers reg pid).1 pid =
      some { p with watcher_count := max 0 (p.watcher_count - 1) } := by
  simp [LivePlayerService.decrement_watchers, h, lookup_setKey_self]

theorem applyWatchOps_lookup (ops : List WatchOp) :
    ∀ (reg : Registry) (pid : String) (p : PlayerData),
      Registry.lookup reg pid = some p →
      ∃ p', Registry.lookup (applyWatchOps reg pid ops) pid = some p' ∧
        p'.user_id = p.user_id ∧ p'.id = p.id ∧
        p'.watcher_count = ops.foldl clampStep p.watcher_count := by
  induction ops with
  | nil =>
      intro reg pid p h
      exact ⟨p, h, rfl, rfl, rfl⟩
  | cons op rest ih =>
      intro reg pid p h
      cases op with
      | join =>
          rcases ih (LivePlayerService.increment_watchers reg pid).1 pid
              { p with watcher_count := p.watcher_count + 1 }
              (lookup_increment reg pid p h) with ⟨p', h1, h2, h3, h4⟩
          exact ⟨p', h1, h2, h3, h4⟩
      | leave =>
          rcases ih (LivePlayerService.decrement_watchers reg pid).1 pid
              { p with watcher_count := max 0 (p.watcher_count - 1) }
              (lookup_decrement reg pid p h) with ⟨p', h1, h2, h3, h4⟩
          exact ⟨p', h1, h2, h3, h4⟩

theorem foldl_clampStep_nonneg (ops : List WatchOp) :
    ∀ c : Int, 0 ≤ c → 0 ≤ ops.foldl clampStep c := by
  induction ops with
  | nil => intro c hc; simpa using hc
  | cons op rest ih =>
      intro c hc
      cases op with
      | join => exact ih (c + 1) (by omega)
      | leave => exact ih (max 0 (c - 1)) (le_max_left 0 (c - 1))

theorem foldl_clampStep_lower (ops : List WatchOp) :
    ∀ c : Int, c + joins ops - leaves ops ≤ ops.foldl clampStep c := by
  induction ops with
  | nil => intro c; simp [joins, leaves]
  | cons op rest ih =>
      intro c
      cases op with
      | join =>
          have h := ih (c + 1)
          simp only [joins, leaves, List.foldl_cons, clampStep]
          omega
      | leave =>
          have h := ih (max 0 (c - 1))
          have hmax : c - 1 ≤ max 0 (c - 1) := le_max_right 0 (c - 1)
          simp only [joins, leaves, List.foldl_cons, clampStep]
          omega

theorem foldl_clampStep_no_underflow (ops : List WatchOp) :
    ∀ c : Int, 0 ≤ c →
      (∀ l1 l2, ops = l1 ++ l2 → (leaves l1 : Int) ≤ c + joins l1) →
      ops.foldl clampStep c = c + joins ops - leaves ops := by
  induction ops with
  | nil => intro c hc _; simp [joins, leaves]
  | cons op rest ih =>
      intro c hc hpre
      cases op with
      | join =>
          have hrest : ∀ l1 l2, rest = l1 ++ l2 → (leaves l1 : Int) ≤ (c + 1) + joins l1 := by
            intro l1 l2 hsplit
            have := hpre (WatchOp.join :: l1) l2 (by simp [hsplit])
            simp only [joins, leaves] at this
            push_cast at this ⊢
            omega
          have h := ih (c + 1) (by omega) hrest
          simp only [joins, leaves, List.foldl_cons, clampStep, h]
          push_cast
          omega
      | leave =>
          have hone : (1 : Int) ≤ c := by
            have := hpre [WatchOp.leave] rest rfl
            simpa [joins, leaves] using this
          have hmax : max 0 (c - 1) = c - 1 := max_eq_right (by omega)
          have hrest : ∀ l1 l2, rest = l1 ++ l2 →
              (leaves l1 : Int) ≤ (c - 1) + joins l1 := by
            intro l1 l2 hsplit
            have := hpre (WatchOp.leave :: l1) l2 (by simp [hsplit])
            simp only [joins, leaves] at this
            push_cast at this ⊢
            omega
          have h := ih (c - 1) (by omega) hrest
          simp only [joins, leaves, List.foldl_cons, clampStep, hmax, h]
          push_cast
          omega

/-- C3 counterexample: on session `p1` of `exReg` (watcher count 0), the
sequence `[leave, join]` ends with watcher count 1, while "(joins −
leaves) clamped at 0" is `max 0 (1 − 1) = 0`: the claimed closed-form
count is violated (the dropped underflowing leave is not compensated by
the later join). -/
theorem c3_counterexample_clamped_formula :
    Registry.lookup (applyWatchOps exReg "p1" [WatchOp.leave, WatchOp.join]) "p1" =
      some { exPlayerData with watcher_count := 1 } ∧
    joins [WatchOp.leave, WatchOp.join] = 1 ∧
    leaves [WatchOp.leave, WatchOp.join] = 1 ∧
    max 0 ((1 : Int) - 1) = 0 ∧
    (1 : Int) ≠ max 0 ((1 : Int) - 1) := by
  refine ⟨by decide, by decide, by decide, by decide, by decide⟩

/-- C3 (amended): for every sequence of join/leave operations on an
existing session starting at watcher count 0, the count never goes
negative (it is the clamped fold `clampFold`, and every prefix of the
run leaves it non-negative), decrementing an already-zero count is a
no-op floor rather than an error, and the count is bounded below by
(joins − leaves) clamped at 0, with equality to `joins − leaves`
whenever no prefix of the sequence has more leaves than joins (the
clamp never fires).  It can exceed `max 0 (joins − leaves)` when an
underflowing leave is followed by more joins. -/
theorem c3_amended_watcher_count (reg : Registry) (pid : String)
    (ops : List WatchOp) (p : PlayerData)
    (h : Registry.lookup reg pid = some p) (h0 : p.watcher_count = 0) :
    (∃ p', Registry.lookup (applyWatchOps reg pid ops) pid = some p' ∧
      p'.user_id = p.user_id ∧
      p'.watcher_count = clampFold ops ∧
      0 ≤ p'.watcher_count ∧
      max 0 ((joins ops : Int) - leaves ops) ≤ p'.watcher_count) ∧
    (∀ l1 l2, ops = l1 ++ l2 →
      ∃ q, Registry.lookup (applyWatchOps reg pid l1) pid = some q ∧
        q.watcher_count = clampFold l1 ∧ 0 ≤ q.watcher_count) ∧
    ((∀ l1 l2, ops = l1 ++ l2 → leaves l1 ≤ joins l1) →
      ∃ p', Registry.lookup (applyWatchOps reg pid ops) pid = some p' ∧
        p'.watcher_count = (joins ops : Int) - leaves ops) := by
  have main := applyWatchOps_lookup ops reg pid p h
  rcases main with ⟨p', h1, h2, h3, h4⟩
  have hfold : p'.watcher_count = clampFold ops := by
    rw [h4, h0]; rfl
  have hnn : 0 ≤ p'.watcher_count := by
    rw [h4, h0]
    exact foldl_clampStep_nonneg ops 0 le_rfl
  refine ⟨⟨p', h1, h2, hfold, hnn, ?_⟩, ?_, ?_⟩
  · refine max_le hnn ?_
    have := foldl_clampStep_lower ops 0
    rw [h4, h0]
    omega
  · intro l1 l2 hsplit
    rcases applyWatchOps_lookup l1 reg pid p h with ⟨q, hq1, hq2, hq3, hq4⟩
    refine ⟨q, hq1, by rw [hq4, h0]; rfl, ?_⟩
    rw [hq4, h0]
    exact foldl_clampStep_nonneg l1 0 le_rfl
  · intro hcond
    refine ⟨p', h1, ?_⟩
    have heq := foldl_clampStep_no_underflow ops 0 le_rfl ?_
    · rw [h4, h0, heq]; omega
    · intro l1 l2 hsplit
      have := hcond l1 l2 hsplit
      omega

/-- Witness for C3 (amended) at `exReg`, session `p1`, operation
sequence `[join, join, leave, leave, leave]` (the spec's floor
scenario): final watcher count `clampFold = 0`, non-negative, and the
no-underflow equality instantiated on `[join, join, leave]`. -/
theorem c3_watchers_witness :
    (∃ p', Registry.lookup
        (applyWatchOps exReg "p1"
          [WatchOp.join, WatchOp.join, WatchOp.leave, WatchOp.leave, WatchOp.leave]) "p1" =
        some p' ∧
      p'.user_id = exPlayerData.user_id ∧
      p'.watcher_count =
        clampFold [WatchOp.join, WatchOp.join, WatchOp.leave, WatchOp.leave, WatchOp.leave] ∧
      0 ≤ p'.watcher_count ∧
      max 0 ((joins [WatchOp.join, WatchOp.join, WatchOp.leave, WatchOp.leave, WatchOp.leave] : Int) -
          leaves [WatchOp.join, WatchOp.join, WatchOp.leave, WatchOp.leave, WatchOp.leave]) ≤
        p'.watcher_count) ∧
    (∃ p', Registry.lookup
        (applyWatchOps exReg "p1" [WatchOp.join, WatchOp.join, WatchOp.leave]) "p1" =
        some p' ∧
      p'.watcher_count =
        (joins [WatchOp.join, WatchOp.join, WatchOp.leave] : Int) -
          leaves [WatchOp.join, WatchOp.join, WatchOp.leave]) := by
  constructor
  · exact (c3_amended_watcher_count exReg "p1"
      [WatchOp.join, WatchOp.join, WatchOp.leave, WatchOp.leave, WatchOp.leave]
      exPlayerData (by decide) (by decide)).1
  · refine (c3_amended_watcher_count exReg "p1"
      [WatchOp.join, WatchOp.join, WatchOp.leave]
      exPlayerData (by decide) (by decide)).2.2 ?_
    intro l1 l2 hsplit
    have hmem : l1 ∈ ([WatchOp.join, WatchOp.join, WatchOp.leave]).inits :=
      (List.mem_inits l1 [WatchOp.join, WatchOp.join, WatchOp.leave]).mpr
        ⟨l2, hsplit.symm⟩
    fin_cases hmem <;> decide

/-! ### C7: leaderboard limit validation and ordering -/

/-- C7: a leaderboard query with `limit = 0` (more generally `limit < 1`)
or `limit > 100` is rejected as a validation error before touching any
store — the same rejection is produced whatever the database contains,
so nothing is ever read, and the limit is never silently clamped into
range; for a valid limit the result is returned with at most `limit`
entries, sorted by score descending. -/
theorem c7_leaderboard_limit_validation (db : Db) (mode : Option GameMode)
    (limit : Int) :
    (limit < 1 ∨ 100 < limit →
      LeaderboardRouter.get_leaderboard db limit mode =
        Except.error ApiError.validationError ∧
      ∀ db2 : Db, LeaderboardRouter.get_leaderboard db limit mode =
        LeaderboardRouter.get_leaderboard db2 limit mode) ∧
    (1 ≤ limit → limit ≤ 100 →
      ∃ entries, LeaderboardRouter.get_leaderboard db limit mode = Except.ok entries ∧
        entries.length ≤ limit.toNat ∧
        List.Pairwise (fun a b => b.score ≤ a.score) entries) := by
  constructor
  · intro h
    constructor
    · simp [LeaderboardRouter.get_leaderboard, h]
    · intro db2
      simp [LeaderboardRouter.get_leaderboard, h]
  · intro h1 h2
    have hcond : ¬(limit < 1 ∨ 100 < limit) := by omega
    refine ⟨DatabaseService.get_leaderboard db limit.toNat mode, ?_, ?_, ?_⟩
    · simp [LeaderboardRouter.get_leaderboard, hcond]
    · simp only [DatabaseService.get_leaderboard, LeaderboardRepository.get_leaderboard,
        List.length_map, List.length_take]
      exact Nat.min_le_left _ _
    · have hsorted := pairwise_sortDesc (fun e : ScoreEntry => e.score)
        (LeaderboardRepository.modeFilter db.ledger mode)
      have htake := List.Pairwise.sublist
        (List.take_sublist limit.toNat
          (sortDesc (fun e : ScoreEntry => e.score)
            (LeaderboardRepository.modeFilter db.ledger mode))) hsorted
      exact List.pairwise_map.mpr htake

/-- Witness for C7: on `exDb`, `limit = 0` is rejected as a validation
error, and `limit = 10` returns at most 10 entries sorted descending. -/
theorem c7_limit_witness :
    (LeaderboardRouter.get_leaderboard exDb 0 none =
      Except.error ApiError.validationError) ∧
    (∃ entries, LeaderboardRouter.get_leaderboard exDb 10 none = Except.ok entries ∧
      entries.length ≤ (10 : Int).toNat ∧
      List.Pairwise (fun a b => b.score ≤ a.score) entries) :=
  ⟨((c7_leaderboard_limit_validation exDb none 0).1 (by omega)).1,
   (c7_leaderboard_limit_validation exDb none 10).2 (by omega) (by omega)⟩

/-! ### C4: the spectator stream loop (routers/live.py, player_stream)

The websocket handler is embedded as a trace semantics.  After the
existence check and `accept`, the handler increments the watcher count
and performs one registry read per iteration (the initial read, then one
per loop tick); sends may raise.  A `Tick` records what the external
world did at that iteration:
`update` — the read found the session and the send succeeded;
`ended` — the read found the session retired (on the initial read the
handler just skips the initial send; inside the loop it sends one
`gameOver` and breaks out of the `try` block normally);
`disconnect` — a websocket operation raised `WebSocketDisconnect`
(handled by the first `except`, which decrements);
`error` — a websocket operation raised any other exception (handled by
the second `except`, which decrements and closes).
`increments`/`decrements` count the handler's calls to
`increment_watchers`/`decrement_watchers`. -/

inductive Tick
  | update
  | ended
  | disconnect
  | error
deriving DecidableEq, BEq

inductive MsgKind
  | gameState
  | gameOver
deriving DecidableEq, BEq

inductive StreamExit
  | rejected
  | ended
  | disconnected
  | errored
  | truncated
deriving DecidableEq, BEq

structure LoopResult where
  msgs : List MsgKind
  decrements : Nat
  exit : StreamExit
deriving DecidableEq, BEq

structure StreamResult where
  msgs : List MsgKind
  increments : Nat
  decrements : Nat
  exit : StreamExit
deriving DecidableEq, BEq

/-- The `while True` loop body of `player_stream`, one `Tick` per
iteration; `truncated` means the trace ends with the loop still
running. -/
def streamLoop : List Tick → LoopResult
  | [] => { msgs := [], decrements := 0, exit := StreamExit.truncated }
  | Tick.update :: rest =>
      let r := streamLoop rest
      { r with msgs := MsgKind.gameState :: r.msgs }
  | Tick.ended :: _ =>
      { msgs := [MsgKind.gameOver], decrements := 0, exit := StreamExit.ended }
  | Tick.disconnect :: _ =>
      { msgs := [], decrements := 1, exit := StreamExit.disconnected }
  | Tick.error :: _ =>
      { msgs := [], decrements := 1, exit := StreamExit.errored }

/-- The whole handler: reject-and-close when the session does not exist;
otherwise increment once, attempt the initial read/send (the first tick:
a present session sends one `gameState`, a retired one skips the send),
then run the loop. -/
def player_stream (sessionExists : Bool) (ticks : List Tick) : StreamResult :=
  if sessionExists then
    match ticks with
    | [] => { msgs := [], increments := 1, decrements := 0, exit := StreamExit.truncated }
    | Tick.update :: rest =>
        let r := streamLoop rest
        { msgs := MsgKind.gameState :: r.msgs, increments := 1,
          decrements := r.decrements, exit := r.exit }
    | Tick.ended :: rest =>
        let r := streamLoop rest
        { msgs := r.msgs, increments := 1, decrements := r.decrements, exit := r.exit }
    | Tick.disconnect :: _ =>
        { msgs := [], increments := 1, decrements := 1, exit := StreamExit.disconnected }
    | Tick.error :: _ =>
        { msgs := [], increments := 1, decrements := 1, exit := StreamExit.errored }
  else { msgs := [], increments := 0, decrements := 0, exit := StreamExit.rejected }

/-- Number of `gameOver` messages in a message trace. -/
def countGameOver (msgs : List MsgKind) : Nat :=
  (msgs.filter (fun m => m == MsgKind.gameOver)).length

theorem countGameOver_cons_state (l : List MsgKind) :
    countGameOver (MsgKind.gameState :: l) = countGameOver l := rfl

theorem streamLoop_spec (ticks : List Tick) :
    ((streamLoop ticks).exit = StreamExit.disconnected ∨
      (streamLoop ticks).exit = StreamExit.errored →
      (streamLoop ticks).decrements = 1) ∧
    ((streamLoop ticks).exit = StreamExit.ended →
      (streamLoop ticks).decrements = 0 ∧
      countGameOver (streamLoop ticks).msgs = 1) ∧
    ((streamLoop ticks).exit = StreamExit.truncated →
      (streamLoop ticks).decrements = 0) ∧
    ((streamLoop ticks).exit ≠ StreamExit.ended →
      countGameOver (streamLoop ticks).msgs = 0) ∧
    (streamLoop ticks).exit ≠ StreamExit.rejected := by
  induction ticks with
  | nil =>
      refine ⟨?_, ?_, ?_, ?_, ?_⟩
      · rintro (h | h) <;> exact nomatch h
      · intro h; exact nomatch h
      · intro _; rfl
      · intro _; rfl
      · intro h; exact nomatch h
  | cons t rest ih =>
      cases t with
      | update =>
          obtain ⟨h1, h2, h3, h4, h5⟩ := ih
          have hmsgs : (streamLoop (Tick.update :: rest)).msgs =
              MsgKind.gameState :: (streamLoop rest).msgs := rfl
          refine ⟨fun h => h1 h, fun h => ⟨(h2 h).1, ?_⟩, fun h => h3 h,
            fun h => ?_, h5⟩
          · rw [hmsgs, countGameOver_cons_state]
            exact (h2 h).2
          · rw [hmsgs, countGameOver_cons_state]
            exact h4 h
      | ended =>
          refine ⟨?_, ?_, ?_, ?_, ?_⟩
          · rintro (h | h) <;> exact nomatch h
          · intro _; exact ⟨rfl, rfl⟩
          · intro _; rfl
          · intro h; exact absurd rfl h
          · intro h; exact nomatch h
      | disconnect =>
          refine ⟨?_, ?_, ?_, ?_, ?_⟩
          · intro _; rfl
          · intro h; exact nomatch h
          · intro h; exact nomatch h
          · intro _; rfl
          · intro h; exact nomatch h
      | error =>
          refine ⟨?_, ?_, ?_, ?_, ?_⟩
          · intro _; rfl
          · intro h; exact nomatch h
          · intro h; exact nomatch h
          · intro _; rfl
          · intro h; exact nomatch h

/-- C4 counterexample: a watcher connects to a live session (one
successful `gameState` push), then the session ends mid-stream.  The
handler sends exactly one `gameOver` and leaves the `try` block through
the normal `break` path — which has no decrement — so the watcher count
is decremented zero times, not exactly once, on the session-ended exit
path. -/
theorem c4_counterexample_ended_path_no_decrement :
    player_stream true [Tick.update, Tick.ended] =
      { msgs := [MsgKind.gameState, MsgKind.gameOver], increments := 1,
        decrements := 0, exit := StreamExit.ended } ∧
    (player_stream true [Tick.update, Tick.ended]).decrements ≠ 1 := by
  refine ⟨by decide, by decide⟩

/-- C4 (amended): for every accepted spectator stream (which increments
the watcher count exactly once), the watcher count is decremented
exactly once on the client-disconnect and transport-error exit paths,
but zero times on the session-ended exit path (the `break` after the
terminal push leaves the `try` block with no decrement; the session has
already been retired from the registry at that point); when the session
ends mid-stream the watcher receives exactly one `gameOver` message
before the channel closes, and no `gameOver` is sent on any other path;
a connection to a nonexistent session is rejected without touching the
count. -/
theorem c4_amended_stream_exit_paths (ticks : List Tick) :
    (player_stream true ticks).increments = 1 ∧
    ((player_stream true ticks).exit = StreamExit.disconnected ∨
      (player_stream true ticks).exit = StreamExit.errored →
      (player_stream true ticks).decrements = 1) ∧
    ((player_stream true ticks).exit = StreamExit.ended →
      (player_stream true ticks).decrements = 0 ∧
      countGameOver (player_stream true ticks).msgs = 1) ∧
    ((player_stream true ticks).exit ≠ StreamExit.ended →
      countGameOver (player_stream true ticks).msgs = 0) ∧
    player_stream false ticks =
      { msgs := [], increments := 0, decrements := 0,
        exit := StreamExit.rejected } := by
  cases ticks with
  | nil =>
      refine ⟨rfl, ?_, ?_, ?_, rfl⟩
      · rintro (h | h) <;> exact nomatch h
      · intro h; exact nomatch h
      · intro _; rfl
  | cons t rest =>
      cases t with
      | update =>
          obtain ⟨h1, h2, h3, h4, h5⟩ := streamLoop_spec rest
          have hmsgs : (player_stream true (Tick.update :: rest)).msgs =
              MsgKind.gameState :: (streamLoop rest).msgs := rfl
          refine ⟨rfl, fun h => h1 h, fun h => ⟨(h2 h).1, ?_⟩, fun h => ?_, rfl⟩
          · rw [hmsgs, countGameOver_cons_state]
            exact (h2 h).2
          · rw [hmsgs, countGameOver_cons_state]
            exact h4 h
      | ended =>
          obtain ⟨h1, h2, h3, h4, h5⟩ := streamLoop_spec rest
          exact ⟨rfl, fun h => h1 h, fun h => h2 h, fun h => h4 h, rfl⟩
      | disconnect =>
          refine ⟨rfl, ?_, ?_, ?_, rfl⟩
          · intro _; rfl
          · intro h; exact nomatch h
          · intro _; rfl
      | error =>
          refine ⟨rfl, ?_, ?_, ?_, rfl⟩
          · intro _; rfl
          · intro h; exact nomatch h
          · intro _; rfl

/-- Witness for C4 (amended): a watcher who receives one update and then
disconnects is decremented exactly once and receives no `gameOver`. -/
theorem c4_stream_witness :
    (player_stream true [Tick.update, Tick.disconnect]).decrements = 1 ∧
    countGameOver (player_stream true [Tick.update, Tick.disconnect]).msgs = 0 :=
  ⟨(c4_amended_stream_exit_paths [Tick.update, Tick.disconnect]).2.1
      (Or.inl (by decide)),
   (c4_amended_stream_exit_paths [Tick.update, Tick.disconnect]).2.2.2.1
      (by decide)⟩

end SnakeBackend
